import Mathlib

/-!
Verification of the CSS selector builder in `src/objects-tasks.js`
(`cssSelectorBuilder`).

The builder is a JavaScript prototype-based object.  Every method reads only
the receiver's own `selector` and `lastPart` string fields and produces a
fresh object via `Object.create`; throwing methods are modelled with
`Except`.  We embed one selector object as a record `SelectorState` with the
two string fields, and the methods as pure functions from the receiver to
`Except BuilderError SelectorState`.  A separate heap model (`Store`,
`runStep`) makes the `Object.create` allocation explicit so that
frame/immutability properties are real theorems rather than artifacts of the
pure embedding.
-/

deriving instance DecidableEq for Except

namespace Css

/-- The two errors thrown by the source.  `duplicate` is
`'Element, id and pseudo-element should not occur more then one time inside the selector'`
(thrown by `validate`), `order` is
`'Selector parts should be arranged in the following order: element, id, class, attribute, pseudo-class, pseudo-element'`
(thrown by `checkOrder`). -/
inductive BuilderError where
  | duplicate
  | order
deriving DecidableEq, Repr

/-- One selector object: the own fields `selector` and `lastPart` that the
source's `create` assigns on each fresh instance. -/
structure SelectorState where
  selector : String
  lastPart : String
deriving DecidableEq, Repr

/-- `sub` is a prefix of `s` (on character lists). -/
def hasPrefixL : List Char → List Char → Bool
  | _, [] => true
  | [], _ :: _ => false
  | a :: as, b :: bs => a == b && hasPrefixL as bs

/-- `sub` occurs as a contiguous substring of `s` (on character lists). -/
def containsL : List Char → List Char → Bool
  | [], sub => hasPrefixL [] sub
  | c :: t, sub => hasPrefixL (c :: t) sub || containsL t sub

/-- JavaScript `String.prototype.includes`: substring containment (the empty
string is contained in every string, as in JS). -/
def strIncludes (s sub : String) : Bool :=
  containsL s.toList sub.toList

/-- JavaScript `Array.prototype.indexOf`: index of the first occurrence of
`s`, `-1` when absent. -/
def jsIndexOf (l : List String) (s : String) : Int :=
  match l with
  | [] => -1
  | x :: xs =>
      if x = s then 0
      else
        let r := jsIndexOf xs s
        if r = -1 then -1 else r + 1

/-- The source's `order` array:
`['element', 'id', 'class', 'attr', 'pseudoClass', 'pseudoElement']`. -/
def order : List String :=
  ["element", "id", "class", "attr", "pseudoClass", "pseudoElement"]

/-- `checkOrder(part)` from the source, with the receiver's `lastPart` passed
explicitly: throws the order error when `lastPartInd > -1 && lastPartInd > partInd`. -/
def checkOrder (lastPart part : String) : Except BuilderError Unit :=
  let lastPartInd := jsIndexOf order lastPart
  let partInd := jsIndexOf order part
  if lastPartInd > -1 ∧ lastPartInd > partInd then
    Except.error BuilderError.order
  else
    Except.ok ()

/-- `validate(currentSelector, newPart)` from the source: starts from
`isCompatible = true`, clears it when the selector contains `'table'` and the
new part is `'div'`, or when the selector contains the new part; throws the
duplicate error when cleared. -/
def validate (currentSelector newPart : String) : Except BuilderError Unit :=
  let isCompatible := true
  let isCompatible :=
    if strIncludes currentSelector "table" = true ∧ newPart = "div" then false
    else isCompatible
  let isCompatible :=
    if strIncludes currentSelector newPart = true then false else isCompatible
  if isCompatible = false then Except.error BuilderError.duplicate
  else Except.ok ()

/-- `create(newSelector, currPart)` from the source: allocates a fresh
instance with the two own fields set (the JS parameter `currPart` defaults to
`''`; callers here always pass it explicitly). -/
def create (newSelector currPart : String) : SelectorState :=
  ⟨newSelector, currPart⟩

/-- `stringify()` from the source: returns the receiver's `selector`. -/
def stringify (self : SelectorState) : String :=
  self.selector

/-- `element(value)` from the source. -/
def element (self : SelectorState) (value : String) :
    Except BuilderError SelectorState := do
  checkOrder self.lastPart "element"
  validate self.selector value
  pure (create (self.selector ++ value) "element")

/-- `id(value)` from the source. -/
def id (self : SelectorState) (value : String) :
    Except BuilderError SelectorState := do
  checkOrder self.lastPart "id"
  validate self.selector "#"
  pure (create (self.selector ++ "#" ++ value) "id")

/-- `class(value)` from the source (named `classFrag` because `class` is a
Lean keyword). -/
def classFrag (self : SelectorState) (value : String) :
    Except BuilderError SelectorState := do
  checkOrder self.lastPart "class"
  pure (create (self.selector ++ "." ++ value) "class")

/-- `attr(value)` from the source. -/
def attr (self : SelectorState) (value : String) :
    Except BuilderError SelectorState := do
  checkOrder self.lastPart "attr"
  pure (create (self.selector ++ "[" ++ value ++ "]") "attr")

/-- `pseudoClass(value)` from the source. -/
def pseudoClass (self : SelectorState) (value : String) :
    Except BuilderError SelectorState := do
  checkOrder self.lastPart "pseudoClass"
  pure (create (self.selector ++ ":" ++ value) "pseudoClass")

/-- `pseudoElement(value)` from the source. -/
def pseudoElement (self : SelectorState) (value : String) :
    Except BuilderError SelectorState := do
  checkOrder self.lastPart "pseudoElement"
  validate self.selector "::"
  pure (create (self.selector ++ "::" ++ value) "pseudoElement")

/-- `combine(selector1, combinator, selector2)` from the source: builds
`` `${selector1.stringify()} ${combinator} ${selector2.stringify()}` `` and
calls `create` on it, `currPart` left at its `''` default. -/
def combine (selector1 : SelectorState) (combinator : String)
    (selector2 : SelectorState) : SelectorState :=
  create (stringify selector1 ++ " " ++ combinator ++ " " ++ stringify selector2) ""

/-- The facade object `cssSelectorBuilder` itself: its own fields are
`selector: ''`, `lastPart: ''`. -/
def cssSelectorBuilder : SelectorState :=
  ⟨"", ""⟩

/-- The six fragment categories, in the spec's fixed order
`[Element, Id, Class, Attribute, PseudoClass, PseudoElement]`. -/
inductive Category where
  | element
  | id
  | classFrag
  | attr
  | pseudoClass
  | pseudoElement
deriving DecidableEq, Repr, Fintype

/-- The string each category's method passes to `checkOrder` / stores in
`lastPart` (the entries of the source's `order` array). -/
def catName : Category → String
  | .element => "element"
  | .id => "id"
  | .classFrag => "class"
  | .attr => "attr"
  | .pseudoClass => "pseudoClass"
  | .pseudoElement => "pseudoElement"

/-- The category's rank: its index in the fixed order. -/
def rank : Category → Nat
  | .element => 0
  | .id => 1
  | .classFrag => 2
  | .attr => 3
  | .pseudoClass => 4
  | .pseudoElement => 5

/-- Dispatch an append call of the given category. -/
def applyCat (c : Category) (self : SelectorState) (value : String) :
    Except BuilderError SelectorState :=
  match c with
  | .element => element self value
  | .id => id self value
  | .classFrag => classFrag self value
  | .attr => attr self value
  | .pseudoClass => pseudoClass self value
  | .pseudoElement => pseudoElement self value

/-- The text fragment a successful append of category `c` with argument `v`
adds to the selector: the per-category punctuation around the argument. -/
def renderFrag : Category → String → String
  | .element, v => v
  | .id, v => "#" ++ v
  | .classFrag, v => "." ++ v
  | .attr, v => "[" ++ v ++ "]"
  | .pseudoClass, v => ":" ++ v
  | .pseudoElement, v => "::" ++ v

/-- Run a whole chain of append calls, left to right. -/
def buildChain (self : SelectorState) :
    List (Category × String) → Except BuilderError SelectorState
  | [] => Except.ok self
  | (c, v) :: rest => do
      let nxt ← applyCat c self v
      buildChain nxt rest

/-- Concatenation of the rendered fragments in call order. -/
def renderAll : List (Category × String) → String
  | [] => ""
  | (c, v) :: rest => renderFrag c v ++ renderAll rest

/-- The `lastPart` field after a chain, starting from `lp`. -/
def lastName (lp : String) : List (Category × String) → String
  | [] => lp
  | (c, _) :: rest => lastName (catName c) rest

/-- The chain's categories respect the fixed order: ranks are nondecreasing
along the list (`none` stands for the initial empty state, which puts no
constraint on the first call). -/
def ordered : Option Category → List (Category × String) → Bool
  | _, [] => true
  | last, (c, _) :: rest =>
      (match last with
       | none => true
       | some lc => decide (rank lc ≤ rank c)) && ordered (some c) rest

/-- Number of calls of category `c` in the chain. -/
def countCat (frags : List (Category × String)) (c : Category) : Nat :=
  (frags.filter fun p => p.1 == c).length

/-- The condition under which the `validate` call made by an append of
category `c` with argument `v` on accumulated text `t` passes (`class`,
`attr` and `pseudoClass` do not call `validate`). -/
def validateOK : Category → String → String → Bool
  | .element, t, v => !(strIncludes t "table" && v == "div") && !(strIncludes t v)
  | .id, t, _ => !(strIncludes t "#")
  | .pseudoElement, t, _ => !(strIncludes t "::")
  | _, _, _ => true

/-- Every `validate` call along the chain passes, starting from accumulated
text `t`. -/
def sideOK (t : String) : List (Category × String) → Bool
  | [] => true
  | (c, v) :: rest => validateOK c t v && sideOK (t ++ renderFrag c v) rest

/-- The `lastPart` string corresponding to an optional last category. -/
def lpOf : Option Category → String
  | none => ""
  | some c => catName c

/-- Heap of selector objects.  JavaScript objects live on a heap and methods
receive a reference; `Object.create` in the source's `create` (and in
`combine`) allocates a fresh object.  We model the heap as a list of objects,
allocation as appending at the end, and references as indices. -/
abbrev Store := List SelectorState

/-- One call in a program run: an append method on the object at index
`self`, a `combine` of two operand objects, or a `stringify` read. -/
inductive Step where
  | elementS (self : Nat) (v : String)
  | idS (self : Nat) (v : String)
  | classS (self : Nat) (v : String)
  | attrS (self : Nat) (v : String)
  | pseudoClassS (self : Nat) (v : String)
  | pseudoElementS (self : Nat) (v : String)
  | combineS (left : Nat) (combinator : String) (right : Nat)
  | stringifyS (self : Nat)
deriving Repr

/-- Allocate the result object of a successful call: the new store and the
fresh reference. -/
def alloc (st : Store) (o : SelectorState) : Store × Nat :=
  (st ++ [o], st.length)

/-- Run one append method: read the receiver, run the method body, and on
success allocate the fresh result object. -/
def appendStep (st : Store) (self : Nat)
    (f : SelectorState → Except BuilderError SelectorState) :
    Option (Except BuilderError (Store × Nat)) :=
  (st[self]?).map fun obj => (f obj).map fun o => alloc st o

/-- Run one step on the store.  `none` when an operand index denotes no
object; otherwise the `Except` outcome of the call.  A successful append or
`combine` allocates its fresh result object; a throwing call allocates
nothing (the source throws before reaching `create`); `stringify` only reads
its receiver, so it returns the store unchanged with the receiver's index. -/
def runStep (st : Store) : Step → Option (Except BuilderError (Store × Nat))
  | .elementS self v => appendStep st self fun obj => element obj v
  | .idS self v => appendStep st self fun obj => id obj v
  | .classS self v => appendStep st self fun obj => classFrag obj v
  | .attrS self v => appendStep st self fun obj => attr obj v
  | .pseudoClassS self v => appendStep st self fun obj => pseudoClass obj v
  | .pseudoElementS self v => appendStep st self fun obj => pseudoElement obj v
  | .combineS left combinator right =>
      match st[left]?, st[right]? with
      | some a, some b => some (Except.ok (alloc st (combine a combinator b)))
      | _, _ => none
  | .stringifyS self =>
      (st[self]?).map fun _ => Except.ok (st, self)

/-- The steps that produce a new selector object (everything except the
`stringify` read). -/
def isAppendOrCombine : Step → Bool
  | .stringifyS _ => false
  | _ => true

/-- The store after a step (unchanged when the step faults or throws). -/
def stepStore (st : Store) (s : Step) : Store :=
  match runStep st s with
  | some (Except.ok (st2, _)) => st2
  | _ => st

/-- The store after a sequence of steps. -/
def runSteps (st : Store) : List Step → Store
  | [] => st
  | s :: rest => runSteps (stepStore st s) rest

theorem except_bind_ok {α β : Type} (a : α) (f : α → Except BuilderError β) :
    (Except.ok a >>= f) = f a := rfl

theorem checkOrder_catName :
    ∀ a b : Category,
      checkOrder (catName a) (catName b) = Except.ok () ↔ rank a ≤ rank b := by
  decide

theorem checkOrder_error_iff :
    ∀ a b : Category,
      checkOrder (catName a) (catName b) = Except.error BuilderError.order ↔
        rank b < rank a := by
  decide

theorem checkOrder_empty (part : String) : checkOrder "" part = Except.ok () := by
  have h : jsIndexOf order "" = -1 := by decide
  unfold checkOrder
  rw [h]
  simp

theorem validate_pass (t np : String)
    (h1 : (strIncludes t "table" && np == "div") = false)
    (h2 : strIncludes t np = false) :
    validate t np = Except.ok () := by
  have h1' : ¬(strIncludes t "table" = true ∧ np = "div") := by
    rintro ⟨a, b⟩
    rw [a, b] at h1
    simp at h1
  simp [validate, h2, h1']

theorem validate_fail (t np : String)
    (h : (strIncludes t "table" = true ∧ np = "div") ∨ strIncludes t np = true) :
    validate t np = Except.error BuilderError.duplicate := by
  by_cases h2 : strIncludes t np = true
  · simp [validate, h2]
  · rcases h with h | h
    · simp [validate, h2, h]
    · exact absurd h h2

theorem applyCat_ok (c : Category) (st : SelectorState) (v : String)
    (hord : checkOrder st.lastPart (catName c) = Except.ok ())
    (hval : validateOK c st.selector v = true) :
    applyCat c st v = Except.ok ⟨st.selector ++ renderFrag c v, catName c⟩ := by
  obtain ⟨t, lp⟩ := st
  cases c
  case element =>
    simp only [validateOK, Bool.and_eq_true, Bool.not_eq_true'] at hval
    have hv : validate t v = Except.ok () := validate_pass t v hval.1 hval.2
    simp_all [applyCat, element, catName, create, renderFrag, except_bind_ok]
  case id =>
    simp only [validateOK, Bool.not_eq_true'] at hval
    have hv : validate t "#" = Except.ok () := validate_pass t "#" (by simp) hval
    simp_all [applyCat, id, catName, create, renderFrag, except_bind_ok,
      String.append_assoc]
  case classFrag =>
    simp_all [applyCat, classFrag, catName, create, renderFrag, except_bind_ok,
      String.append_assoc]
  case attr =>
    simp_all [applyCat, attr, catName, create, renderFrag, except_bind_ok,
      String.append_assoc]
  case pseudoClass =>
    simp_all [applyCat, pseudoClass, catName, create, renderFrag, except_bind_ok,
      String.append_assoc]
  case pseudoElement =>
    simp only [validateOK, Bool.not_eq_true'] at hval
    have hv : validate t "::" = Except.ok () := validate_pass t "::" (by simp) hval
    simp_all [applyCat, pseudoElement, catName, create, renderFrag, except_bind_ok,
      String.append_assoc]

theorem buildChain_ok (frags : List (Category × String)) :
    ∀ (t : String) (o : Option Category),
      ordered o frags = true → sideOK t frags = true →
      buildChain ⟨t, lpOf o⟩ frags =
        Except.ok ⟨t ++ renderAll frags, lastName (lpOf o) frags⟩ := by
  induction frags with
  | nil =>
      intro t o _ _
      simp [buildChain, renderAll, lastName, String.append_empty]
  | cons p rest ih =>
      obtain ⟨c, v⟩ := p
      intro t o hord hside
      simp only [ordered, Bool.and_eq_true] at hord
      obtain ⟨hord1, hord2⟩ := hord
      simp only [sideOK, Bool.and_eq_true] at hside
      obtain ⟨hside1, hside2⟩ := hside
      have hco : checkOrder (lpOf o) (catName c) = Except.ok () := by
        cases o with
        | none => exact checkOrder_empty _
        | some lc =>
            simp only [decide_eq_true_eq] at hord1
            exact (checkOrder_catName lc c).mpr hord1
      have happ : applyCat c ⟨t, lpOf o⟩ v =
          Except.ok ⟨t ++ renderFrag c v, catName c⟩ :=
        applyCat_ok c ⟨t, lpOf o⟩ v hco hside1
      have hrest := ih (t ++ renderFrag c v) (some c) hord2 hside2
      simp only [lpOf] at hrest
      simp only [buildChain, renderAll, lastName]
      rw [happ]
      simp only [except_bind_ok]
      rw [hrest]
      simp [String.append_assoc]

theorem appendStep_ok (st : Store) (self : Nat)
    (f : SelectorState → Except BuilderError SelectorState) (st2 : Store) (i : Nat)
    (h : appendStep st self f = some (Except.ok (st2, i))) :
    ∃ o, st2 = st ++ [o] ∧ i = st.length := by
  cases hv : st[self]? with
  | none => simp [appendStep, hv] at h
  | some obj =>
      cases hr : f obj with
      | error e => simp [appendStep, hv, hr, Except.map] at h
      | ok o =>
          simp only [appendStep, hv, hr, Option.map, Except.map, alloc,
            Option.some.injEq, Except.ok.injEq, Prod.mk.injEq] at h
          exact ⟨o, h.1.symm, h.2.symm⟩

theorem combineStep_ok (st : Store) (l : Nat) (c : String) (r : Nat)
    (st2 : Store) (i : Nat)
    (h : runStep st (.combineS l c r) = some (Except.ok (st2, i))) :
    ∃ o, st2 = st ++ [o] ∧ i = st.length := by
  cases hl : st[l]? with
  | none => simp [runStep, hl] at h
  | some a =>
      cases hr : st[r]? with
      | none => simp [runStep, hl, hr] at h
      | some b =>
          simp only [runStep, hl, hr, alloc, Option.some.injEq,
            Except.ok.injEq, Prod.mk.injEq] at h
          exact ⟨combine a c b, h.1.symm, h.2.symm⟩

theorem runStep_ok_cases (st : Store) (s : Step) (st2 : Store) (i : Nat)
    (h : runStep st s = some (Except.ok (st2, i))) :
    st2 = st ∨ ∃ o, st2 = st ++ [o] ∧ i = st.length := by
  cases s with
  | elementS self v => exact Or.inr (appendStep_ok st self _ st2 i h)
  | idS self v => exact Or.inr (appendStep_ok st self _ st2 i h)
  | classS self v => exact Or.inr (appendStep_ok st self _ st2 i h)
  | attrS self v => exact Or.inr (appendStep_ok st self _ st2 i h)
  | pseudoClassS self v => exact Or.inr (appendStep_ok st self _ st2 i h)
  | pseudoElementS self v => exact Or.inr (appendStep_ok st self _ st2 i h)
  | combineS l c r => exact Or.inr (combineStep_ok st l c r st2 i h)
  | stringifyS self =>
      cases hv : st[self]? with
      | none => simp [runStep, hv] at h
      | some obj =>
          simp only [runStep, hv, Option.map, Option.some.injEq,
            Except.ok.injEq, Prod.mk.injEq] at h
          exact Or.inl h.1.symm

theorem runStep_ok_fresh (st : Store) (s : Step) (st2 : Store) (i : Nat)
    (hs : isAppendOrCombine s = true)
    (h : runStep st s = some (Except.ok (st2, i))) :
    ∃ o, st2 = st ++ [o] ∧ i = st.length := by
  cases s with
  | elementS self v => exact appendStep_ok st self _ st2 i h
  | idS self v => exact appendStep_ok st self _ st2 i h
  | classS self v => exact appendStep_ok st self _ st2 i h
  | attrS self v => exact appendStep_ok st self _ st2 i h
  | pseudoClassS self v => exact appendStep_ok st self _ st2 i h
  | pseudoElementS self v => exact appendStep_ok st self _ st2 i h
  | combineS l c r => exact combineStep_ok st l c r st2 i h
  | stringifyS self => simp [isAppendOrCombine] at hs

theorem stepStore_frame (st : Store) (s : Step) (j : Nat) (h : j < st.length) :
    (stepStore st s)[j]? = st[j]? := by
  unfold stepStore
  cases hr : runStep st s with
  | none => rfl
  | some r =>
      cases r with
      | error e => rfl
      | ok p =>
          obtain ⟨st2, i⟩ := p
          rcases runStep_ok_cases st s st2 i hr with h1 | ⟨o, h2, _⟩
          · simp only [h1]
          · simp only [h2]
            exact List.getElem?_append_left h

theorem stepStore_len (st : Store) (s : Step) :
    st.length ≤ (stepStore st s).length := by
  unfold stepStore
  cases hr : runStep st s with
  | none => exact le_refl _
  | some r =>
      cases r with
      | error e => exact le_refl _
      | ok p =>
          obtain ⟨st2, i⟩ := p
          rcases runStep_ok_cases st s st2 i hr with h1 | ⟨o, h2, _⟩
          · simp only [h1]; exact le_refl _
          · simp only [h2, List.length_append]
            omega

theorem runSteps_frame (steps : List Step) :
    ∀ (st : Store) (j : Nat), j < st.length →
      (runSteps st steps)[j]? = st[j]? := by
  induction steps with
  | nil => intro st j _; rfl
  | cons s rest ih =>
      intro st j h
      have h2 : j < (stepStore st s).length := lt_of_lt_of_le h (stepStore_len st s)
      calc (runSteps st (s :: rest))[j]?
          = (runSteps (stepStore st s) rest)[j]? := rfl
        _ = (stepStore st s)[j]? := ih (stepStore st s) j h2
        _ = st[j]? := stepStore_frame st s j h

theorem except_bind_err {α β : Type} (e : BuilderError)
    (f : α → Except BuilderError β) :
    ((Except.error e : Except BuilderError α) >>= f) = Except.error e := rfl

theorem applyCat_order_err (c : Category) (st : SelectorState) (v : String)
    (h : checkOrder st.lastPart (catName c) = Except.error BuilderError.order) :
    applyCat c st v = Except.error BuilderError.order := by
  cases c <;>
    simp_all [applyCat, element, id, classFrag, attr, pseudoClass,
      pseudoElement, catName, except_bind_err]

/-- The spec's first worked example: `id('main')` then `class('container')`
then `class('editable')` then `stringify` gives `"#main.container.editable"`. -/
theorem spec_example_id_class_class :
    (buildChain cssSelectorBuilder
        [(Category.id, "main"), (Category.classFrag, "container"),
          (Category.classFrag, "editable")]).map stringify =
      Except.ok "#main.container.editable" := by
  decide

/-- The spec's second worked example: `element('a')`, `attr('href$=".png"')`,
`pseudoClass('focus')`, `stringify` gives `'a[href$=".png"]:focus'`. -/
theorem spec_example_element_attr_pseudoClass :
    (buildChain cssSelectorBuilder
        [(Category.element, "a"), (Category.attr, "href$=\".png\""),
          (Category.pseudoClass, "focus")]).map stringify =
      Except.ok "a[href$=\".png\"]:focus" := by
  decide

/-- C1 (counterexample): the claim as stated fails.  The chain
`element('a#b')` then `id('main')` respects the category order and appends
`Element` and `Id` once each, so the claim predicts the successful result
`"a#b#main"`; but the code's substring-based compatibility check sees the
`'#'` inside the element name and the `id` call throws the duplicate error. -/
theorem claim_c1_counterexample :
    ordered none [(Category.element, "a#b"), (Category.id, "main")] = true ∧
    countCat [(Category.element, "a#b"), (Category.id, "main")]
      Category.element ≤ 1 ∧
    countCat [(Category.element, "a#b"), (Category.id, "main")]
      Category.id ≤ 1 ∧
    countCat [(Category.element, "a#b"), (Category.id, "main")]
      Category.pseudoElement ≤ 1 ∧
    (buildChain cssSelectorBuilder
        [(Category.element, "a#b"), (Category.id, "main")]).map stringify =
      Except.error BuilderError.duplicate := by
  decide

/-- C1 (amended): for every sequence of append calls whose categories respect
the fixed order (Element/Id/PseudoElement at most once) and on which,
additionally, every compatibility check passes — an `element` argument is not
a substring of the text accumulated so far (nor is the text `'table'`-bearing
with argument `'div'`), the text before an `id` call does not contain `'#'`,
and the text before a `pseudoElement` call does not contain `'::'` —
`stringify` of the built state returns the concatenation of the fragments in
call order with the per-category prefixes. -/
theorem claim_c1 (frags : List (Category × String))
    (hord : ordered none frags = true)
    (_hel : countCat frags Category.element ≤ 1)
    (_hid : countCat frags Category.id ≤ 1)
    (_hpe : countCat frags Category.pseudoElement ≤ 1)
    (hside : sideOK "" frags = true) :
    (buildChain cssSelectorBuilder frags).map stringify =
      Except.ok (renderAll frags) := by
  have h := buildChain_ok frags "" none hord hside
  rw [show cssSelectorBuilder = (⟨"", lpOf none⟩ : SelectorState) from rfl, h]
  simp [stringify, Except.map, String.empty_append]

/-- C1 (witness): the amended theorem applied to the spec's example chain
`id('main').class('container').class('editable')`. -/
theorem claim_c1_witness :
    (buildChain cssSelectorBuilder
        [(Category.id, "main"), (Category.classFrag, "container"),
          (Category.classFrag, "editable")]).map stringify =
      Except.ok (renderAll
        [(Category.id, "main"), (Category.classFrag, "container"),
          (Category.classFrag, "editable")]) :=
  claim_c1 _ (by decide) (by decide) (by decide) (by decide) (by decide)

/-- C2 (code bug, evaluated): the claim says a second `element` call on a
chain always raises the duplicate error, and the code's own error message
agrees (`'Element, id and pseudo-element should not occur more then one time
inside the selector'`); but `element('a')` then `element('b')` passes both
checks and happily returns the state with text `"ab"` — the compatibility
check only catches a second element whose name is a substring of the
accumulated text (or the hard-coded `table`/`div` pair). -/
theorem claim_c2 :
    buildChain cssSelectorBuilder
        [(Category.element, "a"), (Category.element, "b")] =
      Except.ok ⟨"ab", "element"⟩ := by
  decide

/-- C3: on a state whose `lastPart` is a set category, an append of a
category of strictly lower rank raises the order error, and one of equal or
higher rank passes the order check; on the initial empty state (empty
`lastPart`) the order check permits any first append. -/
theorem claim_c3 :
    (∀ (st : SelectorState) (v : String) (lastC newC : Category),
        st.lastPart = catName lastC →
        (rank newC < rank lastC →
            applyCat newC st v = Except.error BuilderError.order) ∧
        (rank lastC ≤ rank newC →
            checkOrder st.lastPart (catName newC) = Except.ok ())) ∧
    (∀ c : Category, checkOrder "" (catName c) = Except.ok ()) := by
  constructor
  · intro st v lastC newC hlast
    constructor
    · intro hlt
      exact applyCat_order_err newC st v
        (hlast ▸ (checkOrder_error_iff lastC newC).mpr hlt)
    · intro hle
      rw [hlast]
      exact (checkOrder_catName lastC newC).mpr hle
  · intro c
    exact checkOrder_empty (catName c)

/-- C3 (witness): the spec's example — `id` after `class` raises the order
error — and a first append on the empty state passing the order check. -/
theorem claim_c3_witness :
    applyCat Category.id ⟨".container", "class"⟩ "main" =
      Except.error BuilderError.order ∧
    checkOrder "" (catName Category.element) = Except.ok () :=
  ⟨(claim_c3.1 ⟨".container", "class"⟩ "main" Category.classFrag Category.id
      rfl).1 (by decide),
   claim_c3.2 Category.element⟩

/-- C4: for every pair of states and every combinator string (passed through
unvalidated), `stringify (combine A c B)` is
`stringify A ++ " " ++ c ++ " " ++ stringify B`. -/
theorem claim_c4 (A B : SelectorState) (c : String) :
    stringify (combine A c B) = stringify A ++ " " ++ c ++ " " ++ stringify B := by
  simp [combine, stringify, create, String.append_assoc]

/-- C5: no operation mutates an existing object.  On the heap model: after
any step, every pre-existing object's record is unchanged (so its `stringify`
text and `lastPart` are intact), and a successful append or `combine` returns
a reference distinct from every pre-existing one — a new state. -/
theorem claim_c5 (st : Store) (s : Step) (j : Nat) (h : j < st.length) :
    (stepStore st s)[j]? = st[j]? ∧
    ∀ (st2 : Store) (i : Nat), isAppendOrCombine s = true →
      runStep st s = some (Except.ok (st2, i)) →
      i ≠ j ∧ st2[j]? = st[j]? := by
  refine ⟨stepStore_frame st s j h, ?_⟩
  intro st2 i hs hr
  obtain ⟨o, h2, hi⟩ := runStep_ok_fresh st s st2 i hs hr
  subst h2
  constructor
  · omega
  · exact List.getElem?_append_left h

/-- C5 (witness): an `id` call on the store holding only the facade leaves
the facade's record unchanged. -/
theorem claim_c5_witness :
    (stepStore [cssSelectorBuilder] (Step.idS 0 "main"))[0]? =
      some cssSelectorBuilder := by
  rw [(claim_c5 [cssSelectorBuilder] (Step.idS 0 "main") 0 (by decide)).1]
  rfl

/-- C6: the state returned by `combine` has its category tracking reset
(`lastPart` is `''`), so a subsequent append of any category passes the order
check. -/
theorem claim_c6 (A B : SelectorState) (comb : String) (c : Category) :
    checkOrder (combine A comb B).lastPart (catName c) = Except.ok () :=
  checkOrder_empty (catName c)

/-- C7: `stringify` of the factory's empty initial state returns the empty
string. -/
theorem claim_c7 : stringify cssSelectorBuilder = "" := rfl

/-- C8 (counterexample): the claim as stated fails.  The reachable state
built by `element('table')` then `id('x')` has text containing `'table'`,
yet `element('div')` on it raises the order error (the order check runs
before the compatibility check), not the duplicate error the claim names. -/
theorem claim_c8_counterexample :
    buildChain cssSelectorBuilder
        [(Category.element, "table"), (Category.id, "x")] =
      Except.ok ⟨"table#x", "id"⟩ ∧
    strIncludes "table#x" "table" = true ∧
    element ⟨"table#x", "id"⟩ "div" = Except.error BuilderError.order := by
  decide

/-- C8 (amended): on every state whose accumulated text contains `'table'`
and on which the order check permits an `element` append, `element('div')`
raises the duplicate error — the hard-coded special case in the
compatibility check, firing with no second element fragment involved. -/
theorem claim_c8 (st : SelectorState)
    (htable : strIncludes st.selector "table" = true)
    (hord : checkOrder st.lastPart "element" = Except.ok ()) :
    element st "div" = Except.error BuilderError.duplicate := by
  have hv : validate st.selector "div" = Except.error BuilderError.duplicate :=
    validate_fail st.selector "div" (Or.inl ⟨htable, rfl⟩)
  simp [element, hord, hv, except_bind_ok]

/-- C8 (witness): the amended theorem at the state with text `"table"`. -/
theorem claim_c8_witness :
    element ⟨"table", ""⟩ "div" = Except.error BuilderError.duplicate :=
  claim_c8 ⟨"table", ""⟩ (by decide) (by decide)

/-- C9: whenever the order check permits the call, `id` raises the duplicate
error exactly when the accumulated text contains `'#'`, and `pseudoElement`
exactly when it contains `'::'` — depending only on the text, not on the
argument or on which categories were actually appended. -/
theorem claim_c9 (st : SelectorState) (v : String) :
    (checkOrder st.lastPart "id" = Except.ok () →
      (id st v = Except.error BuilderError.duplicate ↔
        strIncludes st.selector "#" = true)) ∧
    (checkOrder st.lastPart "pseudoElement" = Except.ok () →
      (pseudoElement st v = Except.error BuilderError.duplicate ↔
        strIncludes st.selector "::" = true)) := by
  constructor
  · intro hord
    by_cases hc : strIncludes st.selector "#" = true
    · have hv := validate_fail st.selector "#" (Or.inr hc)
      simp [id, hord, hv, except_bind_ok, hc]
    · have hc' : strIncludes st.selector "#" = false := by
        simpa using hc
      have hv := validate_pass st.selector "#" (by simp) hc'
      simp [id, hord, hv, except_bind_ok, hc']
  · intro hord
    by_cases hc : strIncludes st.selector "::" = true
    · have hv := validate_fail st.selector "::" (Or.inr hc)
      simp [pseudoElement, hord, hv, except_bind_ok, hc]
    · have hc' : strIncludes st.selector "::" = false := by
        simpa using hc
      have hv := validate_pass st.selector "::" (by simp) hc'
      simp [pseudoElement, hord, hv, except_bind_ok, hc']

/-- C9 (witness): a text containing `'#'` only because of `element('a#b')`
makes `id` fail, and one containing `'::'` makes `pseudoElement` fail. -/
theorem claim_c9_witness :
    (id ⟨"a#b", "element"⟩ "main" = Except.error BuilderError.duplicate ↔
      strIncludes "a#b" "#" = true) ∧
    (pseudoElement ⟨"x::y", "class"⟩ "hover" =
        Except.error BuilderError.duplicate ↔
      strIncludes "x::y" "::" = true) :=
  ⟨(claim_c9 ⟨"a#b", "element"⟩ "main").1 (by decide),
   (claim_c9 ⟨"x::y", "class"⟩ "hover").2 (by decide)⟩

/-- C10: the shared facade object is never modified: after any sequence of
calls starting from the store holding only the facade, the facade's record
still has `selector` and `lastPart` equal to the empty string, so every chain
started from it begins from the empty state. -/
theorem claim_c10 (steps : List Step) :
    (runSteps [cssSelectorBuilder] steps)[0]? =
      some ⟨"", ""⟩ := by
  rw [runSteps_frame steps [cssSelectorBuilder] 0 (by decide)]
  rfl

end Css
